import Mathlib

/-!
Verification of the correction-engine specification of the dials repository.

The binding layer under src (corrections.cc, nexus_ext.cc) exposes the
free functions lp_correction and dqe_correction, the per-experiment
Corrections engine, the CorrectionsMulti batching layer, and the NeXus
load/dump entry points.  The bodies of the correction functions live in
dials/algorithms/integration/corrections.h, which is not part of the
visible sources, so those operations are modelled here from the design
specification; the NeXus load function is translated directly from
src/nexus/boost_python/nexus_ext.cc.  Doubles are modelled as real
numbers.
-/

namespace DialsSpec

/-- Comparisons of real quantities in the model are resolved classically,
mirroring the total comparisons on doubles in the source. -/
noncomputable instance (priority := 1) decidableOfProp (p : Prop) : Decidable p :=
  Classical.propDecidable p

/-- A 3-component real vector, modelling scitbx vec3 of double. -/
@[ext]
structure Vec3 where
  x : ℝ
  y : ℝ
  z : ℝ

/-- The zero vector. -/
def Vec3.zero : Vec3 := ⟨0, 0, 0⟩

/-- Euclidean dot product of two 3-vectors. -/
def Vec3.dot (a b : Vec3) : ℝ :=
  a.x * b.x + a.y * b.y + a.z * b.z

/-- Cross product of two 3-vectors. -/
def Vec3.cross (a b : Vec3) : Vec3 :=
  ⟨a.y * b.z - a.z * b.y, a.z * b.x - a.x * b.z, a.x * b.y - a.y * b.x⟩

/-- Euclidean length of a 3-vector. -/
noncomputable def Vec3.length (a : Vec3) : ℝ :=
  Real.sqrt (Vec3.dot a a)

/-- Error taxonomy of the correction engine: DomainError for geometrically
degenerate input, OutOfRange for an experiment or panel index outside the
valid collection. -/
inductive CorrError where
  | domainError
  | outOfRange

/-- Modelled from the spec: the cosine of the incidence angle used by
dqe_correction (dials/algorithms/integration/corrections.h is not under
src).  The spec fixes its convention: at normal incidence, with s1
antiparallel to the outward panel normal n, the cosine equals 1, and it
is nonpositive when the diffracted ray points away from or along the
detector face, so it is the normalised dot product of s1 with the inward
normal. -/
noncomputable def cosTheta (s1 n : Vec3) : ℝ :=
  -(Vec3.dot s1 n) / (Vec3.length s1 * Vec3.length n)

/-- Modelled from the spec: dqe_correction(mu, t0, s1, n), whose body is in
dials/algorithms/integration/corrections.h, not under src.  It computes the
fraction of photons absorbed in the sensor, 1 - exp(-mu t0 / cos theta),
and returns its reciprocal; it fails with a DomainError when
cos theta <= 0. -/
noncomputable def dqe_correction (mu t0 : ℝ) (s1 n : Vec3) : Except CorrError ℝ :=
  if cosTheta s1 n ≤ 0 then
    Except.error CorrError.domainError
  else
    Except.ok (1 / (1 - Real.exp (-(mu * t0) / cosTheta s1 n)))

/-- Modelled from the spec: the polarization factor computed inside
lp_correction (dials/algorithms/integration/corrections.h is not under
src).  Following the spec, it is a weighted combination of the two
orthogonal polarization components relative to the polarization normal
pn, weighted by the polarization fraction pf and by 1 - pf: writing p1
for the normalised component of s1 along pn and p3 for the cosine of the
scattering angle between s0 and s1, the component with electric vector
along pn contributes 1 - p1 squared, and the orthogonal component
contributes p3 squared plus p1 squared. -/
noncomputable def polarization_factor (s0 pn : Vec3) (pf : ℝ) (s1 : Vec3) : ℝ :=
  pf * ((Vec3.dot s0 s1 / (Vec3.length s0 * Vec3.length s1)) ^ 2
        + (Vec3.dot pn s1 / (Vec3.length pn * Vec3.length s1)) ^ 2)
    + (1 - pf) * (1 - (Vec3.dot pn s1 / (Vec3.length pn * Vec3.length s1)) ^ 2)

/-- Modelled from the spec: the Lorentz divisor computed inside
lp_correction, the normalised magnitude of the rotation-axis, incident
beam, diffracted beam triple product; the Lorentz factor is its
reciprocal, and it vanishes exactly in the diffraction blind region. -/
noncomputable def lorentz_divisor (s0 m2 s1 : Vec3) : ℝ :=
  |Vec3.dot s1 (Vec3.cross m2 s0)| / (Vec3.length s0 * Vec3.length s1)

/-- Modelled from the spec: lp_correction(s0, pn, pf, m2, s1), whose body
is in dials/algorithms/integration/corrections.h, not under src.  It fails
with a DomainError when s1 is parallel to s0 (zero scattering) or when the
Lorentz-factor denominator, the triple product of m2, s0 and s1, is zero;
otherwise it returns the combined multiplier, one over the product of the
Lorentz factor and the polarization factor. -/
noncomputable def lp_correction (s0 pn : Vec3) (pf : ℝ) (m2 s1 : Vec3) : Except CorrError ℝ :=
  if Vec3.cross s1 s0 = Vec3.zero ∨ Vec3.dot s1 (Vec3.cross m2 s0) = 0 then
    Except.error CorrError.domainError
  else
    Except.ok (lorentz_divisor s0 m2 s1 / polarization_factor s0 pn pf s1)

/-- The beam geometry consumed by the engine: incident direction s0,
polarization normal pn and polarization fraction pf. -/
structure Beam where
  s0 : Vec3
  pn : Vec3
  pf : ℝ

/-- The goniometer geometry consumed by the engine: rotation axis m2. -/
structure Goniometer where
  m2 : Vec3

/-- One detector panel: attenuation coefficient mu, sensor thickness t0
and outward surface normal, a function of the placement of the panel. -/
structure Panel where
  mu : ℝ
  t0 : ℝ
  normal : Vec3

/-- The detector consumed by the engine: an ordered sequence of panels
identified by zero-based index. -/
structure Detector where
  panels : List Panel

/-- Modelled from the spec: the per-experiment Corrections engine declared
in dials/algorithms/integration/corrections.h, not under src; it holds the
construction-time beam, goniometer and detector geometry and has no other
state. -/
structure Corrections where
  beam : Beam
  gonio : Goniometer
  detector : Detector

/-- Modelled from the spec: Corrections::lp extracts s0, pn, pf from the
held beam and m2 from the held goniometer and calls lp_correction. -/
noncomputable def Corrections.lp (c : Corrections) (s1 : Vec3) : Except CorrError ℝ :=
  lp_correction c.beam.s0 c.beam.pn c.beam.pf c.gonio.m2 s1

/-- Modelled from the spec: Corrections::dqe validates the panel index
against the panel count of the held detector, failing with an OutOfRange
error otherwise, and calls dqe_correction with the mu, t0 and outward
normal of that panel. -/
noncomputable def Corrections.dqe (c : Corrections) (s1 : Vec3) (panel : ℕ) : Except CorrError ℝ :=
  match c.detector.panels[panel]? with
  | some p => dqe_correction p.mu p.t0 s1 p.normal
  | none => Except.error CorrError.outOfRange

/-- Modelled from the spec: the CorrectionsMulti batching layer declared
in dials/algorithms/integration/corrections.h, not under src; an ordered,
append-only sequence of Corrections, one per experiment. -/
structure CorrectionsMulti where
  entries : List Corrections

/-- Number of registered experiments; bound as len in the binding. -/
def CorrectionsMulti.size (m : CorrectionsMulti) : ℕ :=
  m.entries.length

/-- Modelled from the spec: CorrectionsMulti::push_back, bound as append,
adds one experiment at the next sequential index. -/
def CorrectionsMulti.push_back (m : CorrectionsMulti) (c : Corrections) : CorrectionsMulti :=
  ⟨m.entries ++ [c]⟩

/-- Modelled from the spec: the scalar routing form of
CorrectionsMulti::lp; it fails with an OutOfRange error when the
experiment index is out of bounds and otherwise routes to the lp of the
entry at that index. -/
noncomputable def CorrectionsMulti.lp (m : CorrectionsMulti) (i : ℕ) (s1 : Vec3) :
    Except CorrError ℝ :=
  match m.entries[i]? with
  | some c => c.lp s1
  | none => Except.error CorrError.outOfRange

/-- Modelled from the spec: the scalar routing form of
CorrectionsMulti::dqe; it fails with an OutOfRange error when the
experiment index is out of bounds and otherwise routes to the dqe of the
entry at that index, which performs its own panel bounds check. -/
noncomputable def CorrectionsMulti.dqe (m : CorrectionsMulti) (i : ℕ) (s1 : Vec3) (panel : ℕ) :
    Except CorrError ℝ :=
  match m.entries[i]? with
  | some c => c.dqe s1 panel
  | none => Except.error CorrError.outOfRange

/-- Modelled from the spec: the vectorized form of CorrectionsMulti::lp
over a parallel sequence of experiment indices and diffracted directions,
computing each element independently and in order. -/
noncomputable def CorrectionsMulti.lpVec (m : CorrectionsMulti) (idx : List ℕ)
    (dirs : List Vec3) : List (Except CorrError ℝ) :=
  List.zipWith (fun i v => m.lp i v) idx dirs

/-- Modelled from the spec: the vectorized form of CorrectionsMulti::dqe
over parallel sequences of experiment indices, diffracted directions and
panel indices, computing each element independently and in order. -/
noncomputable def CorrectionsMulti.dqeVec (m : CorrectionsMulti) (idx : List ℕ)
    (dirs : List Vec3) (panels : List ℕ) : List (Except CorrError ℝ) :=
  List.zipWith (fun i vp => m.dqe i vp.1 vp.2) idx (List.zip dirs panels)

/-- A 3 by 3 real matrix, modelling scitbx mat3 of double. -/
structure Mat3 where
  a : ℝ
  b : ℝ
  c : ℝ
  d : ℝ
  e : ℝ
  f : ℝ
  g : ℝ
  h : ℝ
  i : ℝ

/-- Modelled from the spec: the NXattenuator data carrier of
dials/nexus/nxmx.h, not under src; fields mirror the properties bound in
nexus_ext.cc, and default construction leaves every optional field
empty. -/
structure NXattenuator where
  attenuator_transmission : Option ℝ := none

/-- Modelled from the spec: the NXdetector_module data carrier of
dials/nexus/nxmx.h, not under src; fields mirror the properties bound in
nexus_ext.cc. -/
structure NXdetector_module where
  data_origin : Option (ℤ × ℤ) := none
  data_size : Option (ℤ × ℤ) := none
  module_offset : Option Vec3 := none
  fast_pixel_direction : Option Vec3 := none
  slow_pixel_direction : Option Vec3 := none

/-- Modelled from the spec: the NXdetector data carrier of
dials/nexus/nxmx.h, not under src; fields mirror the properties bound in
nexus_ext.cc. -/
structure NXdetector where
  description : Option String := none
  time_per_channel : Option ℝ := none
  distance : Option ℝ := none
  beam_centre_x : Option ℝ := none
  beam_centre_y : Option ℝ := none
  dead_time : Option ℝ := none
  count_time : Option ℝ := none
  frame_time : Option ℝ := none
  detector_readout_time : Option ℝ := none
  bit_depth_readout : Option ℤ := none
  saturation_value : Option ℤ := none
  sensor_material : Option String := none
  sensor_thickness : Option ℝ := none
  threshold_energy : Option ℝ := none
  type : Option String := none
  gain_setting : Option String := none
  angular_calibration_applied : Option Bool := none
  flatfield_applied : Option Bool := none
  pixel_mask_applied : Option Bool := none
  countrate_correction_applied_applied : Option Bool := none
  angular_calibration : List ℝ := []
  flatfield : List ℝ := []
  flatfield_error : List ℝ := []
  pixel_mask : List ℤ := []
  module : List NXdetector_module := []

/-- Modelled from the spec: the NXinstrument data carrier of
dials/nexus/nxmx.h, not under src. -/
structure NXinstrument where
  attenuator : Option NXattenuator := none
  detector : Option NXdetector := none

/-- Modelled from the spec: the NXbeam data carrier of
dials/nexus/nxmx.h, not under src. -/
structure NXbeam where
  incident_wavelength : Option ℝ := none
  flux : Option ℝ := none
  incident_polarization_stokes : Option (ℝ × ℝ × ℝ × ℝ) := none

/-- Modelled from the spec: the NXsample data carrier of
dials/nexus/nxmx.h, not under src. -/
structure NXsample where
  name : Option String := none
  chemical_formula : Option String := none
  temperature : Option ℝ := none
  unit_cell_class : Option String := none
  unit_cell_group : Option String := none
  sample_orientation : Option Vec3 := none
  orientation_matrix : Option Mat3 := none
  unit_cell : Option (ℝ × ℝ × ℝ × ℝ × ℝ × ℝ) := none
  beam : Option NXbeam := none

/-- Modelled from the spec: the NXdata data carrier of
dials/nexus/nxmx.h, not under src; no properties are bound for it. -/
structure NXdata where
  unused : Unit := ()

/-- Modelled from the spec: the NXmx data carrier of dials/nexus/nxmx.h,
not under src; fields mirror the properties bound in nexus_ext.cc, and
default construction leaves every field empty. -/
structure NXmx where
  title : Option String := none
  start_time : Option String := none
  end_time : Option String := none
  instrument : Option NXinstrument := none
  sample : Option NXsample := none
  data : Option NXdata := none

/-- Translated from src/nexus/boost_python/nexus_ext.cc: the exported
NeXus load function ignores its filename argument, performs no file
access and returns a default-constructed NXmx. -/
def load (filename : String) : NXmx :=
  {}

/-- Translated from src/nexus/boost_python/nexus_ext.cc: the exported
NeXus dump function ignores both arguments and writes nothing. -/
def dump (obj : NXmx) (filename : String) : Unit :=
  ()

/-- A concrete beam used by the witnesses: incident direction along x,
polarization normal along y, half-polarized. -/
noncomputable def wBeam : Beam :=
  ⟨⟨1, 0, 0⟩, ⟨0, 1, 0⟩, 1 / 2⟩

/-- A concrete goniometer used by the witnesses: rotation axis along y. -/
def wGonio : Goniometer :=
  ⟨⟨0, 1, 0⟩⟩

/-- A concrete panel used by the witnesses: unit attenuation coefficient,
unit thickness, outward normal along z. -/
def wPanel : Panel :=
  ⟨1, 1, ⟨0, 0, 1⟩⟩

/-- A concrete single-panel Corrections instance used by the witnesses. -/
noncomputable def wCorr : Corrections :=
  ⟨wBeam, wGonio, ⟨[wPanel]⟩⟩

/-- A concrete one-experiment CorrectionsMulti used by the witnesses. -/
noncomputable def wMulti : CorrectionsMulti :=
  ⟨[wCorr]⟩

/-! Helper lemmas about the vector model. -/

theorem Vec3.dot_self_nonneg (a : Vec3) : 0 ≤ Vec3.dot a a := by
  simp only [Vec3.dot]
  nlinarith [mul_self_nonneg a.x, mul_self_nonneg a.y, mul_self_nonneg a.z]

theorem Vec3.length_nonneg (a : Vec3) : 0 ≤ Vec3.length a :=
  Real.sqrt_nonneg _

theorem Vec3.length_sq_eq (a : Vec3) : Vec3.length a ^ 2 = Vec3.dot a a :=
  Real.sq_sqrt (Vec3.dot_self_nonneg a)

theorem Vec3.eq_zero_of_dot_self (a : Vec3) (h : Vec3.dot a a = 0) : a = Vec3.zero := by
  simp only [Vec3.dot] at h
  have hx : a.x = 0 := mul_self_eq_zero.mp (by nlinarith [mul_self_nonneg a.y, mul_self_nonneg a.z])
  have hy : a.y = 0 := mul_self_eq_zero.mp (by nlinarith [mul_self_nonneg a.x, mul_self_nonneg a.z])
  have hz : a.z = 0 := mul_self_eq_zero.mp (by nlinarith [mul_self_nonneg a.x, mul_self_nonneg a.y])
  ext <;> simp [Vec3.zero, hx, hy, hz]

theorem Vec3.length_pos (a : Vec3) (h : a ≠ Vec3.zero) : 0 < Vec3.length a := by
  rcases (Vec3.dot_self_nonneg a).lt_or_eq with h1 | h1
  · exact Real.sqrt_pos.mpr h1
  · exact absurd (Vec3.eq_zero_of_dot_self a h1.symm) h

theorem Vec3.dot_zero_left (b : Vec3) : Vec3.dot Vec3.zero b = 0 := by
  simp [Vec3.dot, Vec3.zero]

theorem Vec3.dot_zero_right (a : Vec3) : Vec3.dot a Vec3.zero = 0 := by
  simp [Vec3.dot, Vec3.zero]

theorem Vec3.cross_zero_right (a : Vec3) : Vec3.cross a Vec3.zero = Vec3.zero := by
  simp [Vec3.cross, Vec3.zero]

theorem Vec3.dot_sq_le (a b : Vec3) : Vec3.dot a b ^ 2 ≤ Vec3.dot a a * Vec3.dot b b := by
  simp only [Vec3.dot]
  nlinarith [sq_nonneg (a.x * b.y - a.y * b.x), sq_nonneg (a.x * b.z - a.z * b.x),
    sq_nonneg (a.y * b.z - a.z * b.y)]

theorem Vec3.triple_cyclic (m2 s0 s1 : Vec3) :
    Vec3.dot s1 (Vec3.cross m2 s0) = -Vec3.dot m2 (Vec3.cross s1 s0) := by
  simp only [Vec3.dot, Vec3.cross]
  ring

theorem div_dot_sq_le_one (pn s1 : Vec3) :
    (Vec3.dot pn s1 / (Vec3.length pn * Vec3.length s1)) ^ 2 ≤ 1 := by
  rcases eq_or_ne (Vec3.length pn * Vec3.length s1) 0 with h | h
  · rw [h, div_zero]
    norm_num
  · have hp : 0 < Vec3.length pn * Vec3.length s1 :=
      lt_of_le_of_ne (mul_nonneg (Vec3.length_nonneg pn) (Vec3.length_nonneg s1)) (Ne.symm h)
    rw [div_pow, div_le_one (by positivity)]
    calc Vec3.dot pn s1 ^ 2 ≤ Vec3.dot pn pn * Vec3.dot s1 s1 := Vec3.dot_sq_le pn s1
    _ = (Vec3.length pn * Vec3.length s1) ^ 2 := by
        rw [mul_pow, Vec3.length_sq_eq, Vec3.length_sq_eq]

theorem one_sub_exp_pos (t : ℝ) (h : t < 0) : 0 < 1 - Real.exp t := by
  have := Real.exp_lt_one_iff.mpr h
  linarith

theorem cosTheta_unit_down : cosTheta ⟨0, 0, -1⟩ ⟨0, 0, 1⟩ = 1 := by
  simp only [cosTheta, Vec3.dot, Vec3.length]
  norm_num [Real.sqrt_one]

theorem cosTheta_unit_up : cosTheta ⟨0, 0, 1⟩ ⟨0, 0, 1⟩ = -1 := by
  simp only [cosTheta, Vec3.dot, Vec3.length]
  norm_num [Real.sqrt_one]

theorem cosTheta_sqrt3 : cosTheta ⟨Real.sqrt 3, 0, -1⟩ ⟨0, 0, 1⟩ = 1 / 2 := by
  have h3 : Real.sqrt 3 * Real.sqrt 3 = 3 := Real.mul_self_sqrt (by norm_num)
  have h4 : Real.sqrt 4 = 2 := by
    rw [show (4 : ℝ) = 2 * 2 by norm_num, Real.sqrt_mul_self (by norm_num : (0 : ℝ) ≤ 2)]
  simp only [cosTheta, Vec3.dot, Vec3.length]
  norm_num [h3, h4, Real.sqrt_one]

/-! Claim theorems. -/

/-- Claim C1: for every mu > 0, t0 > 0 and diffracted direction s1 at
normal incidence to the panel normal n, where the incidence cosine is 1,
dqe_correction equals 1 / (1 - exp(-mu t0)) exactly; more generally, for
a positive incidence cosine it equals the reciprocal of the absorbed
fraction 1 - exp(-mu t0 / cos theta). -/
theorem dqe_correction_formula (mu t0 : ℝ) (s1 n : Vec3) (hmu : 0 < mu) (ht0 : 0 < t0) :
    (cosTheta s1 n = 1 →
      dqe_correction mu t0 s1 n = Except.ok (1 / (1 - Real.exp (-(mu * t0))))) ∧
    (0 < cosTheta s1 n →
      dqe_correction mu t0 s1 n =
        Except.ok (1 / (1 - Real.exp (-(mu * t0) / cosTheta s1 n)))) := by
  constructor
  · intro h1
    simp only [dqe_correction, h1]
    rw [if_neg (by norm_num), div_one]
  · intro hpos
    simp only [dqe_correction]
    rw [if_neg (not_le.mpr hpos)]

/-- Witness for claim C1 at mu = 1, t0 = 1, s1 antiparallel to n. -/
theorem dqe_correction_formula_witness :
    dqe_correction 1 1 ⟨0, 0, -1⟩ ⟨0, 0, 1⟩ = Except.ok (1 / (1 - Real.exp (-(1 * 1)))) :=
  (dqe_correction_formula 1 1 ⟨0, 0, -1⟩ ⟨0, 0, 1⟩ one_pos one_pos).1 cosTheta_unit_down

/-- Claim C2 counterexample: with mu = 1, t0 = 1 and incidence cosines
1/2 < 1, the correction at the shallower incidence (cosine 1/2) is
strictly SMALLER than at normal incidence, so the claimed strict increase
toward grazing incidence is false. -/
theorem dqe_monotone_counterexample :
    0 < cosTheta ⟨Real.sqrt 3, 0, -1⟩ ⟨0, 0, 1⟩ ∧
    cosTheta ⟨Real.sqrt 3, 0, -1⟩ ⟨0, 0, 1⟩ < cosTheta ⟨0, 0, -1⟩ ⟨0, 0, 1⟩ ∧
    dqe_correction 1 1 ⟨Real.sqrt 3, 0, -1⟩ ⟨0, 0, 1⟩ =
      Except.ok (1 / (1 - Real.exp (-2))) ∧
    dqe_correction 1 1 ⟨0, 0, -1⟩ ⟨0, 0, 1⟩ = Except.ok (1 / (1 - Real.exp (-1))) ∧
    1 / (1 - Real.exp (-2)) < 1 / (1 - Real.exp (-1)) := by
  refine ⟨by rw [cosTheta_sqrt3]; norm_num,
    by rw [cosTheta_sqrt3, cosTheta_unit_down]; norm_num, ?_, ?_, ?_⟩
  · simp only [dqe_correction, cosTheta_sqrt3]
    rw [if_neg (by norm_num)]
    norm_num
  · simp only [dqe_correction, cosTheta_unit_down]
    rw [if_neg (by norm_num)]
    norm_num
  · have h1 : Real.exp (-2 : ℝ) < Real.exp (-1 : ℝ) := Real.exp_lt_exp.mpr (by norm_num)
    have h2 : 0 < 1 - Real.exp (-1 : ℝ) := one_sub_exp_pos _ (by norm_num)
    exact one_div_lt_one_div_of_lt h2 (by linarith)

/-- Claim C2 (amended): for fixed mu > 0 and t0 > 0, dqe_correction is
strictly monotonically DECREASING as the incidence angle increases toward
grazing: if 0 < cos of the second incidence < cos of the first, then the
correction at the second, shallower incidence is strictly smaller; and
for every input with a nonpositive incidence cosine the call fails with a
DomainError. -/
theorem dqe_antitone_grazing (mu t0 : ℝ) (s1 n s1' n' : Vec3) (hmu : 0 < mu) (ht0 : 0 < t0) :
    (0 < cosTheta s1' n' → cosTheta s1' n' < cosTheta s1 n →
      ∃ v v', dqe_correction mu t0 s1 n = Except.ok v ∧
        dqe_correction mu t0 s1' n' = Except.ok v' ∧ v' < v) ∧
    (cosTheta s1 n ≤ 0 → dqe_correction mu t0 s1 n = Except.error CorrError.domainError) := by
  constructor
  · intro h0 hlt
    have hc : 0 < cosTheta s1 n := h0.trans hlt
    refine ⟨1 / (1 - Real.exp (-(mu * t0) / cosTheta s1 n)),
      1 / (1 - Real.exp (-(mu * t0) / cosTheta s1' n')), ?_, ?_, ?_⟩
    · simp only [dqe_correction]
      rw [if_neg (not_le.mpr hc)]
    · simp only [dqe_correction]
      rw [if_neg (not_le.mpr h0)]
    · have ha : 0 < mu * t0 := mul_pos hmu ht0
      have hdiv : -(mu * t0) / cosTheta s1' n' < -(mu * t0) / cosTheta s1 n := by
        rw [neg_div, neg_div]
        exact neg_lt_neg (div_lt_div_of_pos_left ha h0 hlt)
      have hneg : -(mu * t0) / cosTheta s1 n < 0 := by
        rw [neg_div]
        exact neg_neg_iff_pos.mpr (div_pos ha hc)
      have hpos : 0 < 1 - Real.exp (-(mu * t0) / cosTheta s1 n) := one_sub_exp_pos _ hneg
      have hexp : Real.exp (-(mu * t0) / cosTheta s1' n') <
          Real.exp (-(mu * t0) / cosTheta s1 n) := Real.exp_lt_exp.mpr hdiv
      exact one_div_lt_one_div_of_lt hpos (by linarith)
  · intro h
    simp only [dqe_correction]
    rw [if_pos h]

/-- Witness for the amended claim C2 at mu = 1, t0 = 1, with incidence
cosines 1 and 1/2 for the monotone part and an incidence cosine of -1 for
the DomainError part. -/
theorem dqe_antitone_grazing_witness :
    (∃ v v', dqe_correction 1 1 ⟨0, 0, -1⟩ ⟨0, 0, 1⟩ = Except.ok v ∧
      dqe_correction 1 1 ⟨Real.sqrt 3, 0, -1⟩ ⟨0, 0, 1⟩ = Except.ok v' ∧ v' < v) ∧
    dqe_correction 1 1 ⟨0, 0, 1⟩ ⟨0, 0, 1⟩ = Except.error CorrError.domainError := by
  have h := dqe_antitone_grazing 1 1 ⟨0, 0, -1⟩ ⟨0, 0, 1⟩ ⟨Real.sqrt 3, 0, -1⟩ ⟨0, 0, 1⟩
    one_pos one_pos
  have h2 := dqe_antitone_grazing 1 1 ⟨0, 0, 1⟩ ⟨0, 0, 1⟩ ⟨0, 0, 1⟩ ⟨0, 0, 1⟩ one_pos one_pos
  exact ⟨h.1 (by rw [cosTheta_sqrt3]; norm_num)
      (by rw [cosTheta_sqrt3, cosTheta_unit_down]; norm_num),
    h2.2 (by rw [cosTheta_unit_up]; norm_num)⟩

theorem polarization_factor_nonneg (s0 pn : Vec3) (pf : ℝ) (s1 : Vec3)
    (h0 : 0 ≤ pf) (h1 : pf ≤ 1) : 0 ≤ polarization_factor s0 pn pf s1 := by
  have ha := div_dot_sq_le_one pn s1
  have hb := sq_nonneg (Vec3.dot pn s1 / (Vec3.length pn * Vec3.length s1))
  have hc := sq_nonneg (Vec3.dot s0 s1 / (Vec3.length s0 * Vec3.length s1))
  simp only [polarization_factor]
  nlinarith

/-- Claim C3: lp_correction fails with a DomainError exactly in the
degenerate geometries, namely when s1 is parallel to s0 (their cross
product vanishes, covering zero scattering) or when the Lorentz-factor
denominator, the triple product of m2, s0 and s1, is zero; in all other
configurations it returns a value rather than failing. -/
theorem lp_correction_domain_error (s0 pn : Vec3) (pf : ℝ) (m2 s1 : Vec3) :
    (lp_correction s0 pn pf m2 s1 = Except.error CorrError.domainError ↔
      Vec3.cross s1 s0 = Vec3.zero ∨ Vec3.dot s1 (Vec3.cross m2 s0) = 0) ∧
    (¬(Vec3.cross s1 s0 = Vec3.zero ∨ Vec3.dot s1 (Vec3.cross m2 s0) = 0) →
      ∃ v, lp_correction s0 pn pf m2 s1 = Except.ok v) := by
  constructor
  · constructor
    · intro he
      by_contra hn
      simp only [lp_correction] at he
      rw [if_neg hn] at he
      exact absurd he (by simp)
    · intro h
      simp only [lp_correction]
      rw [if_pos h]
  · intro hn
    refine ⟨lorentz_divisor s0 m2 s1 / polarization_factor s0 pn pf s1, ?_⟩
    simp only [lp_correction]
    rw [if_neg hn]

/-- Witness for claim C3 at a non-degenerate geometry: the incident beam
along x, the diffracted beam along z and the rotation axis along y. -/
theorem lp_correction_domain_error_witness :
    ∃ v, lp_correction ⟨1, 0, 0⟩ ⟨0, 1, 0⟩ (1 / 2) ⟨0, 1, 0⟩ ⟨0, 0, 1⟩ = Except.ok v :=
  (lp_correction_domain_error ⟨1, 0, 0⟩ ⟨0, 1, 0⟩ (1 / 2) ⟨0, 1, 0⟩ ⟨0, 0, 1⟩).2 (by
    push_neg
    exact ⟨by norm_num [Vec3.cross, Vec3.zero, Vec3.mk.injEq],
      by norm_num [Vec3.dot, Vec3.cross]⟩)

/-- Claim C4 counterexample: the geometrically valid input with the
incident beam along x, rotation axis and polarization normal along y,
the diffracted beam along z and a fully polarized beam (pf = 1) makes
the polarization factor vanish, so lp_correction returns the non-positive
value 0 (an infinite correction in the floating-point source) instead of
a strictly positive scalar. -/
theorem corrections_positive_counterexample :
    Vec3.cross ⟨0, 0, 1⟩ ⟨1, 0, 0⟩ ≠ Vec3.zero ∧
    Vec3.dot ⟨0, 0, 1⟩ (Vec3.cross ⟨0, 1, 0⟩ ⟨1, 0, 0⟩) ≠ 0 ∧
    (0 : ℝ) ≤ 1 ∧ (1 : ℝ) ≤ 1 ∧
    lp_correction ⟨1, 0, 0⟩ ⟨0, 1, 0⟩ 1 ⟨0, 1, 0⟩ ⟨0, 0, 1⟩ = Except.ok 0 ∧
    ¬∃ v, lp_correction ⟨1, 0, 0⟩ ⟨0, 1, 0⟩ 1 ⟨0, 1, 0⟩ ⟨0, 0, 1⟩ = Except.ok v ∧ 0 < v := by
  have hP : polarization_factor ⟨1, 0, 0⟩ ⟨0, 1, 0⟩ 1 ⟨0, 0, 1⟩ = 0 := by
    simp only [polarization_factor, Vec3.dot, Vec3.length]
    norm_num [Real.sqrt_one]
  have hlp : lp_correction ⟨1, 0, 0⟩ ⟨0, 1, 0⟩ 1 ⟨0, 1, 0⟩ ⟨0, 0, 1⟩ = Except.ok 0 := by
    simp only [lp_correction]
    rw [if_neg (by
      push_neg
      exact ⟨by norm_num [Vec3.cross, Vec3.zero, Vec3.mk.injEq],
        by norm_num [Vec3.dot, Vec3.cross]⟩)]
    rw [hP, div_zero]
  refine ⟨by norm_num [Vec3.cross, Vec3.zero, Vec3.mk.injEq],
    by norm_num [Vec3.dot, Vec3.cross], by norm_num, by norm_num, hlp, ?_⟩
  rintro ⟨v, hv, hpos⟩
  rw [hlp] at hv
  injection hv with h
  rw [← h] at hpos
  exact lt_irrefl 0 hpos

/-- Claim C4 (amended): for all valid inputs, s1 not parallel to s0, a
nonzero Lorentz denominator, pf in the unit interval and additionally a
non-vanishing polarization factor for lp_correction, and mu > 0, t0 > 0
and a positive incidence cosine for dqe_correction, both functions return
strictly positive scalars. -/
theorem corrections_positive_amended (s0 pn : Vec3) (pf : ℝ) (m2 s1 : Vec3)
    (mu t0 : ℝ) (d n : Vec3) :
    (0 ≤ pf → pf ≤ 1 → Vec3.cross s1 s0 ≠ Vec3.zero →
      Vec3.dot s1 (Vec3.cross m2 s0) ≠ 0 → polarization_factor s0 pn pf s1 ≠ 0 →
      ∃ v, lp_correction s0 pn pf m2 s1 = Except.ok v ∧ 0 < v) ∧
    (0 < mu → 0 < t0 → 0 < cosTheta d n →
      ∃ w, dqe_correction mu t0 d n = Except.ok w ∧ 0 < w) := by
  constructor
  · intro h0 h1 hcross htriple hP
    refine ⟨lorentz_divisor s0 m2 s1 / polarization_factor s0 pn pf s1, ?_, ?_⟩
    · simp only [lp_correction]
      rw [if_neg (by push_neg; exact ⟨hcross, htriple⟩)]
    · have hs1 : s1 ≠ Vec3.zero := fun hz => htriple (by rw [hz]; exact Vec3.dot_zero_left _)
      have hcr : Vec3.cross m2 s0 ≠ Vec3.zero := fun hz =>
        htriple (by rw [hz]; exact Vec3.dot_zero_right _)
      have hs0 : s0 ≠ Vec3.zero := fun hz => hcr (by rw [hz]; exact Vec3.cross_zero_right _)
      have hL : 0 < lorentz_divisor s0 m2 s1 :=
        div_pos (abs_pos.mpr htriple)
          (mul_pos (Vec3.length_pos _ hs0) (Vec3.length_pos _ hs1))
      exact div_pos hL
        (lt_of_le_of_ne (polarization_factor_nonneg s0 pn pf s1 h0 h1) (Ne.symm hP))
  · intro hmu ht0 hc
    refine ⟨1 / (1 - Real.exp (-(mu * t0) / cosTheta d n)), ?_, ?_⟩
    · simp only [dqe_correction]
      rw [if_neg (not_le.mpr hc)]
    · have hneg : -(mu * t0) / cosTheta d n < 0 := by
        rw [neg_div]
        exact neg_neg_iff_pos.mpr (div_pos (mul_pos hmu ht0) hc)
      exact div_pos one_pos (one_sub_exp_pos _ hneg)

/-- Witness for the amended claim C4 at a valid geometry with a
half-polarized beam and at normal incidence on the panel. -/
theorem corrections_positive_amended_witness :
    (∃ v, lp_correction ⟨1, 0, 0⟩ ⟨0, 1, 0⟩ (1 / 2) ⟨0, 1, 0⟩ ⟨0, 0, 1⟩ =
      Except.ok v ∧ 0 < v) ∧
    (∃ w, dqe_correction 1 1 ⟨0, 0, -1⟩ ⟨0, 0, 1⟩ = Except.ok w ∧ 0 < w) := by
  have h := corrections_positive_amended ⟨1, 0, 0⟩ ⟨0, 1, 0⟩ (1 / 2) ⟨0, 1, 0⟩ ⟨0, 0, 1⟩
    1 1 ⟨0, 0, -1⟩ ⟨0, 0, 1⟩
  exact ⟨h.1 (by norm_num) (by norm_num)
      (by norm_num [Vec3.cross, Vec3.zero, Vec3.mk.injEq])
      (by norm_num [Vec3.dot, Vec3.cross])
      (by norm_num [polarization_factor, Vec3.dot, Vec3.length, Real.sqrt_one]),
    h.2 one_pos one_pos (by rw [cosTheta_unit_down]; norm_num)⟩

/-- Claim C5: for every Corrections instance and every diffracted
direction s1, the lp method equals the free function lp_correction applied
to the construction-time beam values s0, pn, pf and the goniometer axis
m2; and the method is pure, so two calls with the same s1 on the same
instance return identical results. -/
theorem corrections_lp_pure (c : Corrections) (s1 t1 : Vec3) :
    c.lp s1 = lp_correction c.beam.s0 c.beam.pn c.beam.pf c.gonio.m2 s1 ∧
    (s1 = t1 → c.lp s1 = c.lp t1) :=
  ⟨rfl, fun h => h ▸ rfl⟩

/-- Witness for claim C5 on the concrete witness instance. -/
theorem corrections_lp_pure_witness :
    Corrections.lp wCorr ⟨0, 0, 1⟩ =
      lp_correction ⟨1, 0, 0⟩ ⟨0, 1, 0⟩ (1 / 2) ⟨0, 1, 0⟩ ⟨0, 0, 1⟩ ∧
    Corrections.lp wCorr ⟨0, 0, 1⟩ = Corrections.lp wCorr ⟨0, 0, 1⟩ := by
  have h := corrections_lp_pure wCorr ⟨0, 0, 1⟩ ⟨0, 0, 1⟩
  exact ⟨h.1, h.2 rfl⟩

/-- Claim C6: Corrections.dqe fails with an OutOfRange error when the
panel index is not below the panel count of the held detector, and
otherwise returns dqe_correction applied to the mu, t0 and outward normal
of that panel. -/
theorem corrections_dqe_panel_check (c : Corrections) (s1 : Vec3) (panel : ℕ) :
    (c.detector.panels.length ≤ panel →
      c.dqe s1 panel = Except.error CorrError.outOfRange) ∧
    (∀ h : panel < c.detector.panels.length,
      c.dqe s1 panel =
        dqe_correction (c.detector.panels.get ⟨panel, h⟩).mu
          (c.detector.panels.get ⟨panel, h⟩).t0 s1
          (c.detector.panels.get ⟨panel, h⟩).normal) := by
  constructor
  · intro h
    simp only [Corrections.dqe]
    rw [List.getElem?_eq_none h]
  · intro h
    simp only [Corrections.dqe]
    rw [List.getElem?_eq_getElem h]
    rfl

/-- Witness for claim C6 on the concrete single-panel instance: panel
index 1 is out of range and panel index 0 routes to dqe_correction with
the parameters of the only panel. -/
theorem corrections_dqe_panel_check_witness :
    Corrections.dqe wCorr ⟨0, 0, -1⟩ 1 = Except.error CorrError.outOfRange ∧
    Corrections.dqe wCorr ⟨0, 0, -1⟩ 0 = dqe_correction 1 1 ⟨0, 0, -1⟩ ⟨0, 0, 1⟩ := by
  have h1 := corrections_dqe_panel_check wCorr ⟨0, 0, -1⟩ 1
  have h0 := corrections_dqe_panel_check wCorr ⟨0, 0, -1⟩ 0
  refine ⟨h1.1 (by simp [wCorr, wPanel]), ?_⟩
  have := h0.2 (by simp [wCorr, wPanel])
  simpa [wCorr, wPanel] using this

/-- Claim C7: for every CorrectionsMulti and experiment index i below its
size, the routed lp and dqe calls equal the corresponding calls on entry
i, and any index at or past the size fails with an OutOfRange error. -/
theorem corrections_multi_routing (m : CorrectionsMulti) (i : ℕ) (s1 : Vec3) (panel : ℕ) :
    (∀ h : i < m.size,
      m.lp i s1 = (m.entries.get ⟨i, h⟩).lp s1 ∧
      m.dqe i s1 panel = (m.entries.get ⟨i, h⟩).dqe s1 panel) ∧
    (m.size ≤ i →
      m.lp i s1 = Except.error CorrError.outOfRange ∧
      m.dqe i s1 panel = Except.error CorrError.outOfRange) := by
  constructor
  · intro h
    constructor
    · simp only [CorrectionsMulti.lp]
      rw [List.getElem?_eq_getElem h]
      rfl
    · simp only [CorrectionsMulti.dqe]
      rw [List.getElem?_eq_getElem h]
      rfl
  · intro h
    constructor
    · simp only [CorrectionsMulti.lp]
      rw [List.getElem?_eq_none h]
    · simp only [CorrectionsMulti.dqe]
      rw [List.getElem?_eq_none h]

/-- Witness for claim C7 on the concrete one-experiment collection:
index 0 routes to the single entry and index 1, equal to the size, fails
with an OutOfRange error. -/
theorem corrections_multi_routing_witness :
    CorrectionsMulti.lp wMulti 0 ⟨0, 0, 1⟩ = Corrections.lp wCorr ⟨0, 0, 1⟩ ∧
    CorrectionsMulti.dqe wMulti 0 ⟨0, 0, -1⟩ 0 = Corrections.dqe wCorr ⟨0, 0, -1⟩ 0 ∧
    CorrectionsMulti.lp wMulti 1 ⟨0, 0, 1⟩ = Except.error CorrError.outOfRange ∧
    CorrectionsMulti.dqe wMulti 1 ⟨0, 0, -1⟩ 0 = Except.error CorrError.outOfRange := by
  have h0l := corrections_multi_routing wMulti 0 ⟨0, 0, 1⟩ 0
  have h0d := corrections_multi_routing wMulti 0 ⟨0, 0, -1⟩ 0
  have h1l := corrections_multi_routing wMulti 1 ⟨0, 0, 1⟩ 0
  have h1d := corrections_multi_routing wMulti 1 ⟨0, 0, -1⟩ 0
  refine ⟨?_, ?_, (h1l.2 (by simp [wMulti, CorrectionsMulti.size])).1,
    (h1d.2 (by simp [wMulti, CorrectionsMulti.size])).2⟩
  · have := (h0l.1 (by simp [wMulti, CorrectionsMulti.size])).1
    simpa [wMulti] using this
  · have := (h0d.1 (by simp [wMulti, CorrectionsMulti.size])).2
    simpa [wMulti] using this

/-- Claim C8: appending a Corrections instance to a CorrectionsMulti
increases its size by exactly one, places the new instance at the index
equal to the length before the call, and leaves the lp and dqe behavior
of every previously appended entry unchanged for all inputs. -/
theorem corrections_multi_push_back (m : CorrectionsMulti) (c : Corrections)
    (i : ℕ) (s1 : Vec3) (panel : ℕ) :
    (m.push_back c).size = m.size + 1 ∧
    (m.push_back c).entries[m.size]? = some c ∧
    (i < m.size →
      (m.push_back c).lp i s1 = m.lp i s1 ∧
      (m.push_back c).dqe i s1 panel = m.dqe i s1 panel) := by
  refine ⟨?_, ?_, ?_⟩
  · simp [CorrectionsMulti.push_back, CorrectionsMulti.size]
  · exact List.getElem?_concat_length m.entries c
  · intro h
    constructor
    · simp only [CorrectionsMulti.lp, CorrectionsMulti.push_back]
      rw [List.getElem?_append_left h]
    · simp only [CorrectionsMulti.dqe, CorrectionsMulti.push_back]
      rw [List.getElem?_append_left h]

/-- Witness for claim C8: appending a second copy of the witness entry to
the one-experiment collection gives size 2, stores the new entry at index
1 and preserves the routed results at index 0. -/
theorem corrections_multi_push_back_witness :
    (wMulti.push_back wCorr).size = wMulti.size + 1 ∧
    (wMulti.push_back wCorr).entries[wMulti.size]? = some wCorr ∧
    ((wMulti.push_back wCorr).lp 0 ⟨0, 0, 1⟩ = wMulti.lp 0 ⟨0, 0, 1⟩ ∧
      (wMulti.push_back wCorr).dqe 0 ⟨0, 0, -1⟩ 0 = wMulti.dqe 0 ⟨0, 0, -1⟩ 0) := by
  have h := corrections_multi_push_back wMulti wCorr 0 ⟨0, 0, 1⟩ 0
  have h2 := corrections_multi_push_back wMulti wCorr 0 ⟨0, 0, -1⟩ 0
  exact ⟨h.1, h.2.1, (h.2.2 (by simp [wMulti, CorrectionsMulti.size])).1,
    (h2.2.2 (by simp [wMulti, CorrectionsMulti.size])).2⟩

/-- Claim C9: the vectorized lp and dqe calls over parallel sequences of
experiment indices, diffracted directions and, for dqe, panel indices
return a sequence of the same length whose element i equals the result of
the corresponding single scalar call for input i, order-preserving and
with no cross-element coupling. -/
theorem corrections_multi_vectorized (m : CorrectionsMulti) (idx : List ℕ)
    (dirs : List Vec3) (panels : List ℕ)
    (h1 : idx.length = dirs.length) (h2 : idx.length = panels.length) :
    (m.lpVec idx dirs).length = idx.length ∧
    (m.dqeVec idx dirs panels).length = idx.length ∧
    (∀ i, ∀ hi : i < idx.length, ∀ hd : i < dirs.length,
      ∀ hr : i < (m.lpVec idx dirs).length,
      (m.lpVec idx dirs).get ⟨i, hr⟩ = m.lp (idx.get ⟨i, hi⟩) (dirs.get ⟨i, hd⟩)) ∧
    (∀ i, ∀ hi : i < idx.length, ∀ hd : i < dirs.length, ∀ hp : i < panels.length,
      ∀ hr : i < (m.dqeVec idx dirs panels).length,
      (m.dqeVec idx dirs panels).get ⟨i, hr⟩ =
        m.dqe (idx.get ⟨i, hi⟩) (dirs.get ⟨i, hd⟩) (panels.get ⟨i, hp⟩)) := by
  refine ⟨?_, ?_, ?_, ?_⟩
  · simp only [CorrectionsMulti.lpVec, List.length_zipWith]
    omega
  · simp only [CorrectionsMulti.dqeVec, List.length_zipWith, List.length_zip]
    omega
  · intro i hi hd hr
    simp [CorrectionsMulti.lpVec]
  · intro i hi hd hp hr
    simp [CorrectionsMulti.dqeVec]

/-- Witness for claim C9 on the concrete one-experiment collection with
singleton input sequences. -/
theorem corrections_multi_vectorized_witness :
    (wMulti.lpVec [0] [⟨0, 0, 1⟩]).length = 1 ∧
    (wMulti.dqeVec [0] [⟨0, 0, -1⟩] [0]).length = 1 ∧
    (wMulti.lpVec [0] [⟨0, 0, 1⟩]).get
        ⟨0, by simp [CorrectionsMulti.lpVec]⟩ = wMulti.lp 0 ⟨0, 0, 1⟩ ∧
    (wMulti.dqeVec [0] [⟨0, 0, -1⟩] [0]).get
        ⟨0, by simp [CorrectionsMulti.dqeVec]⟩ = wMulti.dqe 0 ⟨0, 0, -1⟩ 0 := by
  have h := corrections_multi_vectorized wMulti [0] [⟨0, 0, 1⟩] [0] rfl rfl
  have h2 := corrections_multi_vectorized wMulti [0] [⟨0, 0, -1⟩] [0] rfl rfl
  exact ⟨h.1, h2.2.1,
    h.2.2.1 0 (by simp) (by simp) (by simp [CorrectionsMulti.lpVec]),
    h2.2.2.2 0 (by simp) (by simp) (by simp) (by simp [CorrectionsMulti.dqeVec])⟩

/-- Claim C10: for every filename argument, the exported NeXus load
function returns a default-constructed NXmx value; the result is the same
for all filenames and no file content is read. -/
theorem load_ignores_filename (f g : String) :
    load f = load g ∧ load f = ({} : NXmx) :=
  ⟨rfl, rfl⟩

end DialsSpec
